import Mathlib

/-!
Verification of the numerical-methods repository: Legendre polynomial
tables (`legendre.py`), a Taylor-series square-root approximator
(`square_root.py`), and two ODE time steppers (`time_steppers.py`).
All real arithmetic is embedded exactly over `ℚ`; the Python `while`
loop of the square-root approximator is embedded with explicit fuel,
and Python runtime exceptions are embedded as an error type.
-/

/-- Python runtime errors relevant to this repository, plus the spec's
abstract `InvalidArgument` kind (which the code never raises). -/
inductive PyErr where
  | indexError
  | valueError
  | zeroDivisionError
  | invalidArgument
  deriving DecidableEq, Repr

/-! ## Legendre evaluator (`src/legendre.py`, `compute_legendre`) -/

/-- Row `n` of the Legendre table built by `compute_legendre`:
row 0 is all ones (`legendre[0, :] = 1`), row 1 is `x`
(`legendre[1, :] = x`), and row `n` for `n ≥ 2` is
`((2n-1)*x*legendre[n-1] - (n-1)*legendre[n-2]) / n` elementwise. -/
def legendreRow (x : List ℚ) : ℕ → List ℚ
  | 0 => x.map (fun _ => (1 : ℚ))
  | 1 => x
  | n + 2 =>
    List.zipWith
      (fun xi pr =>
        ((2 * ((n : ℚ) + 2) - 1) * xi * pr.1 - (((n : ℚ) + 2) - 1) * pr.2) / ((n : ℚ) + 2))
      x ((legendreRow x (n + 1)).zip (legendreRow x n))

/-- `compute_legendre(x, p)`: the table of rows 0..p, each row holding the
degree-n Legendre polynomial values at the entries of `x`. -/
def compute_legendre (x : List ℚ) (p : ℕ) : List (List ℚ) :=
  (List.range (p + 1)).map (legendreRow x)

/-- `compute_legendre` for an arbitrary integer degree `p`, embedding the
unguarded numpy behavior: `np.zeros((p+1, m))` raises `ValueError` when
`p + 1 < 0`, and the assignment `legendre[0, :] = 1` raises `IndexError`
when the table has zero rows (`p + 1 = 0`). -/
def compute_legendre_checked (x : List ℚ) (p : ℤ) : Except PyErr (List (List ℚ)) :=
  if p + 1 < 0 then .error .valueError
  else if p + 1 = 0 then .error .indexError
  else .ok (compute_legendre x (p + 1).toNat.pred)

/-! ## Square-root approximator (`src/square_root.py`) -/

/-- `taylor_term(k, delta_x, x_n)`: term `k` of the truncated binomial
series.  For `k ≥ 1` the Python expression `delta_x / x_n**2` raises
`ZeroDivisionError` when `x_n = 0`. -/
def taylor_term (k : ℕ) (delta_x x_n : ℚ) : Except PyErr ℚ :=
  if k = 0 then .ok 1
  else if x_n = 0 then .error .zeroDivisionError
  else
    let coeff : ℚ := (-1) ^ k / (((1 : ℚ) - 2 * k) * 4 ^ k)
    .ok (coeff * (Nat.choose (2 * k) k : ℚ) * (delta_x / x_n ^ 2) ^ k)

/-- `sum(taylor_term(k, delta_x, x_new) for k in range(N + 1))`: left fold
starting from 0, propagating the first exception. -/
def taylor_sum (N : ℕ) (delta_x x_n : ℚ) : Except PyErr ℚ :=
  (List.range (N + 1)).foldlM (fun acc k => (taylor_term k delta_x x_n).map (acc + ·)) 0

/-- Outcome of a (fuel-bounded) run of the square-root loop. -/
inductive SqrtResult where
  | done (x : ℚ) (count : ℕ)
  | fail (e : PyErr)
  | timeout
  deriving DecidableEq, Repr

/-- The `while abs(x_new**2 - a) > eps` loop of `approx_square_root`,
with explicit fuel: the loop condition is tested before fuel is
consumed, so `timeout` means the loop body was about to run again. -/
def sqrtLoop (a eps : ℚ) (N : ℕ) : ℕ → ℚ → ℕ → SqrtResult
  | fuel, x, c =>
    if |x ^ 2 - a| ≤ eps then .done x c
    else
      match fuel with
      | 0 => .timeout
      | fuel' + 1 =>
        match taylor_sum N (a - x ^ 2) x with
        | .error e => .fail e
        | .ok s => sqrtLoop a eps N fuel' (x * s) (c + 1)

/-- `approx_square_root(a, N, x0, eps)` run with the given fuel:
`x_new = x0`, `iteration_count = 0`, then the while loop. -/
def approx_square_root (a : ℚ) (N : ℕ) (x0 eps : ℚ) (fuel : ℕ) : SqrtResult :=
  sqrtLoop a eps N fuel x0 0

/-! ## ODE time steppers (`src/time_steppers.py`) -/

/-- `np.linspace(0, T, N + 1)` over `ℚ`: `t[n] = n * T / N`. -/
def linspaceQ (T : ℚ) (N : ℕ) : List ℚ :=
  (List.range (N + 1)).map (fun n : ℕ => (n : ℚ) * T / N)

/-- Value at index `n` of the `y_vals` array built by
`perform_time_stepping1`: `y_vals[0] = y0`, `y_vals[1] = y1`, and for
`n` from 1 to N-1, `y_vals[n+1] = y_vals[n] + h * f(t_vals[n], y_vals[n])`
with `h = T / N`. -/
def euler_y (T : ℚ) (N : ℕ) (y0 y1 : ℚ) (f : ℚ → ℚ → ℚ) : ℕ → ℚ
  | 0 => y0
  | 1 => y1
  | n + 2 =>
    euler_y T N y0 y1 f (n + 1) +
      (T / N) * f (((n : ℚ) + 1) * T / N) (euler_y T N y0 y1 f (n + 1))

/-- `perform_time_stepping1(T, N, y0, y1, f)`: the time grid and the
solution array of the (two-seed) explicit Euler stepper. -/
def perform_time_stepping1 (T : ℚ) (N : ℕ) (y0 y1 : ℚ) (f : ℚ → ℚ → ℚ) :
    List ℚ × List ℚ :=
  (linspaceQ T N, (List.range (N + 1)).map (euler_y T N y0 y1 f))

/-- Value at index `n` of the `y_vals` array built by
`perform_time_stepping2` (classical RK4): `y_vals[0] = y0` and for each
step the four-stage update with `h = T / N`. -/
def rk4_y (T : ℚ) (N : ℕ) (y0 : ℚ) (f : ℚ → ℚ → ℚ) : ℕ → ℚ
  | 0 => y0
  | n + 1 =>
    let h := T / N
    let t_n := (n : ℚ) * T / N
    let y_n := rk4_y T N y0 f n
    let k1 := h * f t_n y_n
    let k2 := h * f (t_n + h / 2) (y_n + k1 / 2)
    let k3 := h * f (t_n + h / 2) (y_n + k2 / 2)
    let k4 := h * f (t_n + h) (y_n + k3)
    y_n + (k1 + 2 * k2 + 2 * k3 + k4) / 6

/-- `perform_time_stepping2(T, N, M, y0, f)`: the time grid and the RK4
solution array.  The refinement parameter `M` is accepted but, as in the
source, does not occur in the computation. -/
def perform_time_stepping2 (T : ℚ) (N : ℕ) (M : ℤ) (y0 : ℚ) (f : ℚ → ℚ → ℚ) :
    List ℚ × List ℚ :=
  (linspaceQ T N, (List.range (N + 1)).map (rk4_y T N y0 f))

/-! ## Helper lemmas -/

theorem getD_map_range {α : Type} (g : ℕ → α) (m n : ℕ) (d : α) (h : n < m) :
    ((List.range m).map g).getD n d = g n := by
  rw [List.getD_eq_getElem?_getD, List.getElem?_map, List.getElem?_range h]
  rfl

theorem legendreRow_length (x : List ℚ) : ∀ n, (legendreRow x n).length = x.length
  | 0 => by simp [legendreRow]
  | 1 => by simp [legendreRow]
  | n + 2 => by
    simp [legendreRow, List.length_zipWith, List.length_zip,
      legendreRow_length x (n + 1), legendreRow_length x n]

theorem legendreRow_getD (x : List ℚ) (n i : ℕ) (hi : i < x.length) :
    (legendreRow x (n + 2)).getD i 0 =
      ((2 * ((n : ℚ) + 2) - 1) * x.getD i 0 * (legendreRow x (n + 1)).getD i 0
        - (((n : ℚ) + 2) - 1) * (legendreRow x n).getD i 0) / ((n : ℚ) + 2) := by
  have h2 : i < (legendreRow x (n + 2)).length := by rw [legendreRow_length]; exact hi
  have h1 : i < (legendreRow x (n + 1)).length := by rw [legendreRow_length]; exact hi
  have h0 : i < (legendreRow x n).length := by rw [legendreRow_length]; exact hi
  have hz : i < ((legendreRow x (n + 1)).zip (legendreRow x n)).length := by
    rw [List.length_zip, legendreRow_length, legendreRow_length]
    exact lt_min hi hi
  rw [List.getD_eq_getElem _ _ h2, List.getD_eq_getElem _ _ hi,
    List.getD_eq_getElem _ _ h1, List.getD_eq_getElem _ _ h0]
  simp only [legendreRow, List.getElem_zipWith, List.getElem_zip]

theorem map_one_eq_replicate (x : List ℚ) :
    x.map (fun _ => (1 : ℚ)) = List.replicate x.length 1 := by
  induction x with
  | nil => rfl
  | cons a l ih => simp [ih, List.replicate_succ]

/-! ## Claim theorems: Legendre evaluator -/

/-- C1: for every sample vector `x`, every `p ≥ 2`, and every degree `n`
with `2 ≤ n ≤ p`, row `n` of `compute_legendre x p` equals
`((2n-1)·x·row(n-1) - (n-1)·row(n-2))/n` elementwise, at every sample
index. -/
theorem legendre_recurrence (x : List ℚ) (p n : ℕ) (hn : 2 ≤ n) (hp : n ≤ p)
    (i : ℕ) (hi : i < x.length) :
    ((compute_legendre x p).getD n []).getD i 0 =
      ((2 * (n : ℚ) - 1) * x.getD i 0 * (((compute_legendre x p).getD (n - 1) []).getD i 0)
        - ((n : ℚ) - 1) * (((compute_legendre x p).getD (n - 2) []).getD i 0)) / (n : ℚ) := by
  obtain ⟨m, rfl⟩ : ∃ m, n = m + 2 := ⟨n - 2, by omega⟩
  rw [compute_legendre, getD_map_range _ _ _ _ (by omega),
    getD_map_range _ _ _ _ (by omega), getD_map_range _ _ _ _ (by omega)]
  rw [show m + 2 - 1 = m + 1 from rfl, show m + 2 - 2 = m from rfl]
  rw [legendreRow_getD x m i hi]
  push_cast
  ring

/-- Witness for C1 at `x = [1, -1]`, `p = 3`, `n = 2`, `i = 0`. -/
theorem legendre_recurrence_witness :
    (2 ≤ 2 ∧ 2 ≤ 3 ∧ 0 < [(1 : ℚ), -1].length) ∧
    ((compute_legendre [(1 : ℚ), -1] 3).getD 2 []).getD 0 0 =
      ((2 * (2 : ℚ) - 1) * ([(1 : ℚ), -1].getD 0 0) *
        (((compute_legendre [(1 : ℚ), -1] 3).getD 1 []).getD 0 0)
        - ((2 : ℚ) - 1) * (((compute_legendre [(1 : ℚ), -1] 3).getD 0 []).getD 0 0)) /
          (2 : ℚ) :=
  ⟨⟨by decide, by decide, by decide⟩,
    legendre_recurrence [(1 : ℚ), -1] 3 2 (by decide) (by decide) 0 (by decide)⟩

/-- C4: for every `p ≥ 0` and sample vector `x`, `compute_legendre x p`
has `p + 1` rows each of length `x.length`, row 0 is all ones, and when
`p ≥ 1` row 1 equals `x` componentwise. -/
theorem legendre_shape (x : List ℚ) (p : ℕ) :
    (compute_legendre x p).length = p + 1 ∧
    (∀ row ∈ compute_legendre x p, row.length = x.length) ∧
    (compute_legendre x p).getD 0 [] = List.replicate x.length 1 ∧
    (1 ≤ p → (compute_legendre x p).getD 1 [] = x) := by
  refine ⟨by simp [compute_legendre], ?_, ?_, ?_⟩
  · intro row hrow
    simp only [compute_legendre, List.mem_map, List.mem_range] at hrow
    obtain ⟨k, -, rfl⟩ := hrow
    exact legendreRow_length x k
  · rw [compute_legendre, getD_map_range _ _ _ _ (by omega)]
    exact map_one_eq_replicate x
  · intro hp
    rw [compute_legendre, getD_map_range _ _ _ _ (by omega)]
    rfl

/-- Witness for C4 at `x = [2, 3]`, `p = 1`. -/
theorem legendre_shape_witness :
    (compute_legendre [(2 : ℚ), 3] 1).length = 2 ∧
    (compute_legendre [(2 : ℚ), 3] 1).getD 0 [] = List.replicate 2 1 ∧
    (1 ≤ 1 ∧ (compute_legendre [(2 : ℚ), 3] 1).getD 1 [] = [(2 : ℚ), 3]) :=
  ⟨(legendre_shape [(2 : ℚ), 3] 1).1, (legendre_shape [(2 : ℚ), 3] 1).2.2.1,
    by decide, (legendre_shape [(2 : ℚ), 3] 1).2.2.2 (by decide)⟩

/-- C9 counterexample: at `x = [0]`, `p = -1` the call fails with
`IndexError` (from the unguarded `legendre[0, :] = 1` on an empty
table), not with `InvalidArgument`. -/
theorem legendre_neg_counterexample :
    compute_legendre_checked [0] (-1) = .error .indexError ∧
    compute_legendre_checked [0] (-1) ≠ .error .invalidArgument := by
  constructor
  · rfl
  · intro h
    rw [show compute_legendre_checked [0] (-1) = Except.error PyErr.indexError from rfl] at h
    exact PyErr.noConfusion (Except.error.inj h)

/-- C9 amended: for every `x` and integer `p < 0`, `compute_legendre`
does fail rather than returning a table, but with the unguarded
`IndexError` (when `p = -1`) or `ValueError` (when `p ≤ -2`) of the
array construction, not with a clear `InvalidArgument`. -/
theorem legendre_neg_fails (x : List ℚ) (p : ℤ) (hp : p < 0) :
    compute_legendre_checked x p =
      .error (if p = -1 then PyErr.indexError else PyErr.valueError) := by
  by_cases h1 : p = -1
  · subst h1
    simp [compute_legendre_checked]
  · have h2 : p + 1 < 0 := by omega
    simp [compute_legendre_checked, h2, h1]

/-- Witness for the amended C9 at `x = [0]`, `p = -2`. -/
theorem legendre_neg_fails_witness :
    ((-2 : ℤ) < 0) ∧ compute_legendre_checked [0] (-2) = .error PyErr.valueError :=
  ⟨by decide, legendre_neg_fails [0] (-2) (by decide)⟩

/-! ## Claim theorems: square-root approximator -/

theorem taylor_sum_zero_est (m : ℕ) (delta : ℚ) :
    taylor_sum (m + 1) delta 0 = .error .zeroDivisionError := by
  have hr : List.range (m + 2) =
      0 :: Nat.succ 0 :: (List.map Nat.succ (List.range m)).map Nat.succ := by
    rw [List.range_succ_eq_map, List.range_succ_eq_map, List.map_cons]
  rw [taylor_sum, hr]
  simp [List.foldlM_cons, taylor_term, Except.map, bind, Except.bind]

theorem taylor_sum_zero_terms (delta x : ℚ) : taylor_sum 0 delta x = .ok 1 := by
  show List.foldlM _ _ [0] = _
  simp [List.foldlM_cons, taylor_term, Except.map, bind, Except.bind, pure, Except.pure]

/-- C5: with `a > 0`, `eps > 0`, and `x0 ^ 2 = a` exactly, the
approximator returns immediately with result `x0` and iteration count
0, for any fuel. -/
theorem sqrt_exact_done (a : ℚ) (N : ℕ) (x0 eps : ℚ) (fuel : ℕ)
    (ha : 0 < a) (heps : 0 < eps) (hx : x0 ^ 2 = a) :
    approx_square_root a N x0 eps fuel = .done x0 0 := by
  have hcond : |x0 ^ 2 - a| ≤ eps := by
    rw [hx, sub_self, abs_zero]
    exact le_of_lt heps
  cases fuel with
  | zero => rw [approx_square_root, sqrtLoop, if_pos hcond]
  | succ fuel => rw [approx_square_root, sqrtLoop, if_pos hcond]

/-- Witness for C5 at `a = 9`, `N = 2`, `x0 = 3`, `eps = 1`, fuel 5. -/
theorem sqrt_exact_done_witness :
    ((0 : ℚ) < 9 ∧ (0 : ℚ) < 1 ∧ (3 : ℚ) ^ 2 = 9) ∧
    approx_square_root 9 2 3 1 5 = .done 3 0 :=
  ⟨⟨by norm_num, by norm_num, by norm_num⟩,
    sqrt_exact_done 9 2 3 1 5 (by norm_num) (by norm_num) (by norm_num)⟩

/-- C6: if the loop of `approx_square_root` reaches an estimate of
exactly 0 while the stopping tolerance is still unmet and `N ≥ 1`, the
call fails with `ZeroDivisionError` (raised by `taylor_term` at
`k = 1`) rather than returning a result. -/
theorem sqrt_zero_estimate_fails (a eps : ℚ) (N c fuel : ℕ) (hN : 1 ≤ N)
    (h : eps < |(0 : ℚ) ^ 2 - a|) :
    sqrtLoop a eps N (fuel + 1) 0 c = .fail .zeroDivisionError := by
  obtain ⟨m, rfl⟩ : ∃ m, N = m + 1 := ⟨N - 1, by omega⟩
  rw [sqrtLoop, if_neg (not_le.mpr h), taylor_sum_zero_est]

/-- Witness for C6 at `a = 2`, `eps = 1`, `N = 1`, count 0, fuel 1. -/
theorem sqrt_zero_estimate_fails_witness :
    (1 ≤ 1 ∧ (1 : ℚ) < |(0 : ℚ) ^ 2 - 2|) ∧
    sqrtLoop 2 1 1 1 0 0 = .fail .zeroDivisionError :=
  ⟨⟨by decide, by norm_num⟩,
    sqrt_zero_estimate_fails 2 1 1 0 0 (by decide) (by norm_num)⟩

theorem sqrtLoop_N0_timeout (a eps : ℚ) :
    ∀ (fuel : ℕ) (x : ℚ) (c : ℕ), eps < |x ^ 2 - a| → sqrtLoop a eps 0 fuel x c = .timeout
  | 0, x, c, h => by
    rw [sqrtLoop, if_neg (not_le.mpr h)]
  | fuel + 1, x, c, h => by
    rw [sqrtLoop, if_neg (not_le.mpr h), taylor_sum_zero_terms]
    show sqrtLoop a eps 0 fuel (x * 1) (c + 1) = SqrtResult.timeout
    rw [mul_one]
    exact sqrtLoop_N0_timeout a eps fuel x (c + 1) h

/-- C7: `approx_square_root` has no iteration cap, and with `N = 0`
(correction factor identically 1, estimate never changes) and
`|x0 ^ 2 - a| > eps`, the loop never meets the tolerance: for every
fuel the run is cut off by fuel exhaustion, i.e. the unbounded Python
loop does not terminate. -/
theorem sqrt_no_cap_diverges (a x0 eps : ℚ) (fuel : ℕ)
    (ha : 0 < a) (hx : x0 ≠ 0) (heps : 0 < eps) (hfar : eps < |x0 ^ 2 - a|) :
    approx_square_root a 0 x0 eps fuel = .timeout :=
  sqrtLoop_N0_timeout a eps fuel x0 0 hfar

/-- Witness for C7 at `a = 2`, `x0 = 1`, `eps = 1/2`, fuel 4. -/
theorem sqrt_no_cap_diverges_witness :
    ((0 : ℚ) < 2 ∧ (1 : ℚ) ≠ 0 ∧ (0 : ℚ) < 1 / 2 ∧ (1 : ℚ) / 2 < |(1 : ℚ) ^ 2 - 2|) ∧
    approx_square_root 2 0 1 (1 / 2) 4 = .timeout :=
  ⟨⟨by norm_num, by norm_num, by norm_num, by norm_num⟩,
    sqrt_no_cap_diverges 2 1 (1 / 2) 4 (by norm_num) (by norm_num) (by norm_num) (by norm_num)⟩

/-! ## Claim theorems: ODE time steppers -/

/-- The four-stage RK4 update of a single step, exactly the loop body of
`perform_time_stepping2`. -/
def rk4step (h : ℚ) (f : ℚ → ℚ → ℚ) (t_n y_n : ℚ) : ℚ :=
  let k1 := h * f t_n y_n
  let k2 := h * f (t_n + h / 2) (y_n + k1 / 2)
  let k3 := h * f (t_n + h / 2) (y_n + k2 / 2)
  let k4 := h * f (t_n + h) (y_n + k3)
  y_n + (k1 + 2 * k2 + 2 * k3 + k4) / 6

/-- A concrete derivative function used by the witnesses below. -/
def fdemo : ℚ → ℚ → ℚ := fun t y => t + y

/-- C2: for `T > 0` and `N ≥ 1`, `perform_time_stepping1` returns two
arrays of length `N + 1`; the time array satisfies `t[n] = n·T/N`;
`y[0] = y0`; `y[1]` is the caller-supplied `y1` unchanged (no Euler
step computes it); and the Euler update
`y[n+1] = y[n] + h·f(t[n], y[n])`, `h = T/N`, holds exactly for
`n = 1 .. N-1`. -/
theorem euler_contract (T : ℚ) (N : ℕ) (y0 y1 : ℚ) (f : ℚ → ℚ → ℚ)
    (hT : 0 < T) (hN : 1 ≤ N) :
    (perform_time_stepping1 T N y0 y1 f).1.length = N + 1 ∧
    (perform_time_stepping1 T N y0 y1 f).2.length = N + 1 ∧
    (∀ n, n ≤ N → (perform_time_stepping1 T N y0 y1 f).1.getD n 0 = (n : ℚ) * T / N) ∧
    (perform_time_stepping1 T N y0 y1 f).2.getD 0 0 = y0 ∧
    (perform_time_stepping1 T N y0 y1 f).2.getD 1 0 = y1 ∧
    (∀ n, 1 ≤ n → n < N →
      (perform_time_stepping1 T N y0 y1 f).2.getD (n + 1) 0 =
        (perform_time_stepping1 T N y0 y1 f).2.getD n 0 +
          (T / N) * f ((perform_time_stepping1 T N y0 y1 f).1.getD n 0)
            ((perform_time_stepping1 T N y0 y1 f).2.getD n 0)) := by
  refine ⟨by simp only [perform_time_stepping1, linspaceQ, List.length_map, List.length_range],
    by simp only [perform_time_stepping1, List.length_map, List.length_range], ?_, ?_, ?_, ?_⟩
  · intro n hn
    simp only [perform_time_stepping1, linspaceQ]
    exact getD_map_range _ _ _ _ (by omega)
  · simp only [perform_time_stepping1]
    exact getD_map_range _ _ _ _ (by omega)
  · simp only [perform_time_stepping1]
    exact getD_map_range _ _ _ _ (by omega)
  · intro n h1 h2
    obtain ⟨m, rfl⟩ : ∃ m, n = m + 1 := ⟨n - 1, by omega⟩
    simp only [perform_time_stepping1, linspaceQ]
    rw [getD_map_range _ _ _ _ (show m + 1 + 1 < N + 1 by omega),
      getD_map_range _ _ _ _ (show m + 1 < N + 1 by omega),
      getD_map_range _ _ _ _ (show m + 1 < N + 1 by omega)]
    rw [euler_y]
    push_cast
    ring

/-- Witness for C2 at `T = 1`, `N = 2`, `y0 = 0`, `y1 = 1`, `f = fdemo`,
with the Euler update checked at `n = 1`. -/
theorem euler_contract_witness :
    ((0 : ℚ) < 1 ∧ 1 ≤ 2 ∧ 1 ≤ 1 ∧ 1 < 2) ∧
    (perform_time_stepping1 1 2 0 1 fdemo).2.getD 2 0 =
      (perform_time_stepping1 1 2 0 1 fdemo).2.getD 1 0 +
        ((1 : ℚ) / ((2 : ℕ) : ℚ)) *
          fdemo ((perform_time_stepping1 1 2 0 1 fdemo).1.getD 1 0)
            ((perform_time_stepping1 1 2 0 1 fdemo).2.getD 1 0) :=
  ⟨⟨by norm_num, by decide, by decide, by decide⟩,
    ((euler_contract 1 2 0 1 fdemo (by norm_num) (by decide)).2.2.2.2.2) 1
      (by decide) (by decide)⟩

/-- C3: for `T > 0` and `N ≥ 1`, `perform_time_stepping2` returns the
evenly spaced grid `t[n] = n·T/N` over `[0, T]` with `N + 1` points and
a solution array with `y[0] = y0` whose consecutive values satisfy the
classical four-stage RK4 update with `h = T/N` for every step
`n = 0 .. N-1`. -/
theorem rk4_contract (T : ℚ) (N : ℕ) (M : ℤ) (y0 : ℚ) (f : ℚ → ℚ → ℚ)
    (hT : 0 < T) (hN : 1 ≤ N) :
    (perform_time_stepping2 T N M y0 f).1.length = N + 1 ∧
    (perform_time_stepping2 T N M y0 f).2.length = N + 1 ∧
    (∀ n, n ≤ N → (perform_time_stepping2 T N M y0 f).1.getD n 0 = (n : ℚ) * T / N) ∧
    (perform_time_stepping2 T N M y0 f).2.getD 0 0 = y0 ∧
    (∀ n, n < N →
      (perform_time_stepping2 T N M y0 f).2.getD (n + 1) 0 =
        rk4step (T / N) f ((perform_time_stepping2 T N M y0 f).1.getD n 0)
          ((perform_time_stepping2 T N M y0 f).2.getD n 0)) := by
  refine ⟨by simp only [perform_time_stepping2, linspaceQ, List.length_map, List.length_range],
    by simp only [perform_time_stepping2, List.length_map, List.length_range], ?_, ?_, ?_⟩
  · intro n hn
    simp only [perform_time_stepping2, linspaceQ]
    exact getD_map_range _ _ _ _ (by omega)
  · simp only [perform_time_stepping2]
    exact getD_map_range _ _ _ _ (by omega)
  · intro n hn
    simp only [perform_time_stepping2, linspaceQ]
    rw [getD_map_range _ _ _ _ (show n + 1 < N + 1 by omega),
      getD_map_range _ _ _ _ (show n < N + 1 by omega),
      getD_map_range _ _ _ _ (show n < N + 1 by omega)]
    rfl

/-- Witness for C3 at `T = 1`, `N = 1`, `M = 0`, `y0 = 1`, `f = fdemo`,
with the RK4 update checked at step `n = 0`. -/
theorem rk4_contract_witness :
    ((0 : ℚ) < 1 ∧ 1 ≤ 1 ∧ 0 < 1) ∧
    (perform_time_stepping2 1 1 0 1 fdemo).2.getD 1 0 =
      rk4step ((1 : ℚ) / ((1 : ℕ) : ℚ)) fdemo
        ((perform_time_stepping2 1 1 0 1 fdemo).1.getD 0 0)
        ((perform_time_stepping2 1 1 0 1 fdemo).2.getD 0 0) :=
  ⟨⟨by norm_num, by decide, by decide⟩,
    ((rk4_contract 1 1 0 1 fdemo (by norm_num) (by decide)).2.2.2.2) 0 (by decide)⟩

/-- C8: the refinement parameter `M` of `perform_time_stepping2` does
not influence the computation: any two values of `M` give identical
time grids and solution arrays. -/
theorem rk4_M_unused (T : ℚ) (N : ℕ) (M M' : ℤ) (y0 : ℚ) (f : ℚ → ℚ → ℚ)
    (hT : 0 < T) (hN : 1 ≤ N) :
    perform_time_stepping2 T N M y0 f = perform_time_stepping2 T N M' y0 f := rfl

/-- Witness for C8 at `T = 1`, `N = 2`, `M = 3`, `M' = 7`. -/
theorem rk4_M_unused_witness :
    ((0 : ℚ) < 1 ∧ 1 ≤ 2) ∧
    perform_time_stepping2 1 2 3 1 fdemo = perform_time_stepping2 1 2 7 1 fdemo :=
  ⟨⟨by norm_num, by decide⟩, rk4_M_unused 1 2 3 7 1 fdemo (by norm_num) (by decide)⟩

theorem euler_y_tail_indep (T : ℚ) (N : ℕ) (y0 y0' y1 : ℚ) (f : ℚ → ℚ → ℚ) :
    ∀ n, euler_y T N y0 y1 f (n + 1) = euler_y T N y0' y1 f (n + 1)
  | 0 => rfl
  | n + 1 => by
    rw [euler_y, euler_y, euler_y_tail_indep T N y0 y0' y1 f n]

/-- C10: in `perform_time_stepping1` the initial condition `y0`
influences only index 0 of the output: the time grids are identical and
the solution arrays agree at every index `1 .. N`, the recurrence being
seeded from `y1` alone. -/
theorem euler_y0_influences_only_index0 (T : ℚ) (N : ℕ) (y0 y0' y1 : ℚ)
    (f : ℚ → ℚ → ℚ) (hT : 0 < T) (hN : 1 ≤ N) :
    (perform_time_stepping1 T N y0 y1 f).1 = (perform_time_stepping1 T N y0' y1 f).1 ∧
    (∀ n, 1 ≤ n → n ≤ N →
      (perform_time_stepping1 T N y0 y1 f).2.getD n 0 =
        (perform_time_stepping1 T N y0' y1 f).2.getD n 0) := by
  refine ⟨rfl, ?_⟩
  intro n h1 h2
  obtain ⟨m, rfl⟩ : ∃ m, n = m + 1 := ⟨n - 1, by omega⟩
  simp only [perform_time_stepping1]
  rw [getD_map_range _ _ _ _ (show m + 1 < N + 1 by omega),
    getD_map_range _ _ _ _ (show m + 1 < N + 1 by omega)]
  exact euler_y_tail_indep T N y0 y0' y1 f m

/-- Witness for C10 at `T = 1`, `N = 2`, `y0 = 5`, `y0' = 7`,
`y1 = 1`, checked at index 1. -/
theorem euler_y0_influences_only_index0_witness :
    ((0 : ℚ) < 1 ∧ 1 ≤ 2 ∧ 1 ≤ 1 ∧ 1 ≤ 2) ∧
    (perform_time_stepping1 1 2 5 1 fdemo).2.getD 1 0 =
      (perform_time_stepping1 1 2 7 1 fdemo).2.getD 1 0 :=
  ⟨⟨by norm_num, by decide, by decide, by decide⟩,
    ((euler_y0_influences_only_index0 1 2 5 7 1 fdemo (by norm_num) (by decide)).2) 1
      (by decide) (by decide)⟩
